import Mathlib

/-!
A shallow embedding of the movie-recommendation program
(`interactive.py` and `user_movie_graph.py`) and proofs about it.

Python floats are modelled as rationals (`ℚ`); Python dicts as
insertion-ordered association lists; Python sets as lists (membership up to
structural equality) or `Finset`s where only the set contents matter.
Python exceptions are modelled with `Except PyErr`.
-/

set_option autoImplicit false

/-- The Python exception kinds that matter to this program. -/
inductive PyErr : Type
  | valueError
  | runtimeError
  | typeError
  | keyError
  | fileNotFound
deriving DecidableEq

deriving instance DecidableEq for Except

/-- Python dict read `d.get(k, dflt)` / `d[k]` on an insertion-ordered
association list. -/
def dictGetD {κ α : Type} [DecidableEq κ] : List (κ × α) → κ → α → α
  | [], _, dflt => dflt
  | p :: rest, k, dflt => if p.1 = k then p.2 else dictGetD rest k dflt

/-- Python dict assignment `d[k] = v`: updates the entry in place if the key
exists, otherwise appends at the end (Python dicts preserve insertion order). -/
def dictSet {κ α : Type} [DecidableEq κ] : List (κ × α) → κ → α → List (κ × α)
  | [], k, v => [(k, v)]
  | p :: rest, k, v => if p.1 = k then (k, v) :: rest else p :: dictSet rest k v

/-- Python dict membership `k in d`. -/
def dictHasKey {κ α : Type} [DecidableEq κ] (d : List (κ × α)) (k : κ) : Bool :=
  d.any fun p => p.1 = k

/-- Python dict indexing `d[k]`, raising `KeyError` when the key is absent. -/
def dictGetE {κ α : Type} [DecidableEq κ] : List (κ × α) → κ → Except PyErr α
  | [], _ => .error .keyError
  | p :: rest, k => if p.1 = k then .ok p.2 else dictGetE rest k

/-- Whitespace characters stripped by Python `str.strip()`. -/
def charIsSpace (c : Char) : Bool :=
  c = ' ' ∨ c = '\t' ∨ c = '\n' ∨ c = '\r'

/-- Python `str.strip()` on the character list of a string. -/
def trimChars (l : List Char) : List Char :=
  ((l.dropWhile charIsSpace).reverse.dropWhile charIsSpace).reverse

/-- Python `str.isdigit()` applied after `str.strip()`, as in the source's
`year.strip().isdigit()`: the stripped string is nonempty and all digits. -/
def pyStripIsDigit (s : String) : Bool :=
  trimChars s.data ≠ [] ∧ (trimChars s.data).all Char.isDigit

/-- Value of a digit-character list read in base 10. -/
def digitsToNat (l : List Char) : Nat :=
  l.foldl (fun acc c => acc * 10 + (c.toNat - 48)) 0

/-- Python `int(s)` on a character list: strips surrounding whitespace, parses
an optionally signed decimal integer, raises `ValueError` otherwise. -/
def pyIntL (l : List Char) : Except PyErr Int :=
  match trimChars l with
  | '-' :: body =>
      if body ≠ [] ∧ body.all Char.isDigit then .ok (-(digitsToNat body : Int))
      else .error .valueError
  | '+' :: body =>
      if body ≠ [] ∧ body.all Char.isDigit then .ok (digitsToNat body : Int)
      else .error .valueError
  | body =>
      if body ≠ [] ∧ body.all Char.isDigit then .ok (digitsToNat body : Int)
      else .error .valueError

/-- Python `int(s)` on a string. -/
def pyInt (s : String) : Except PyErr Int := pyIntL s.data

/-- Split a character list on a separator character, like Python
`str.split(sep)`: always returns at least one (possibly empty) piece. -/
def splitOnChar (sep : Char) : List Char → List (List Char)
  | [] => [[]]
  | c :: rest =>
    match splitOnChar sep rest with
    | [] => [[]]
    | h :: t => if c = sep then [] :: h :: t else (c :: h) :: t

/-- The integer-part / fractional-part form of a Python decimal float
literal, scaled by `sign`. -/
def pyFloatBody (sign : ℚ) (body : List Char) : Except PyErr ℚ :=
  match splitOnChar '.' body with
  | [ip] =>
      if ip ≠ [] ∧ ip.all Char.isDigit then .ok (sign * (digitsToNat ip : ℚ))
      else .error .valueError
  | [ip, fp] =>
      if (ip.all Char.isDigit ∧ fp.all Char.isDigit) ∧ ¬ (ip = [] ∧ fp = [])
      then .ok (sign * ((digitsToNat ip : ℚ)
            + (digitsToNat fp : ℚ) / ((10 ^ fp.length : Nat) : ℚ)))
      else .error .valueError
  | _ => .error .valueError

/-- Python `float(s)` on decimal literals, modelled over `ℚ`: strips
whitespace, accepts an optional sign, an integer part and an optional
fractional part separated by a dot; raises `ValueError` otherwise. -/
def pyFloat (s : String) : Except PyErr ℚ :=
  match trimChars s.data with
  | '-' :: body => pyFloatBody (-1) body
  | '+' :: body => pyFloatBody 1 body
  | body => pyFloatBody 1 body

/-- Python `str.replace("min", "")`, as applied to the runtime column:
removes every (non-overlapping, leftmost-first) occurrence of `"min"`. -/
def removeMin : List Char → List Char
  | 'm' :: 'i' :: 'n' :: rest => removeMin rest
  | c :: rest => c :: removeMin rest
  | [] => []

/-! ## Data model (`interactive.py`) -/

/-- `Movie` from `interactive.py`: title, year, length, genre, rating,
director, lead actors, votes. Ratings are modelled as `ℚ`. -/
structure Movie : Type where
  title : String
  year : Int
  length : Int
  genre : String
  rating : ℚ
  director : String
  lead_actors : List String
  votes : Int
deriving DecidableEq

/-- `User` from `interactive.py`: an id and a set of watched movies. The
Python set is modelled as a list whose membership is what matters. -/
structure User : Type where
  user_id : Int
  watched_movies : List Movie
deriving DecidableEq

/-- Python `set.add` on the watched-movies set: no change when the movie is
already present. -/
def addWatched (u : User) (m : Movie) : User :=
  if m ∈ u.watched_movies then u
  else { u with watched_movies := u.watched_movies ++ [m] }

/-! ## The networkx user-movie graph (`user_movie_graph.py`) -/

/-- A networkx node as used by `build_user_movie_graph`: its name and its
`type` / `genre` attributes (absent attributes are `none`, matching
`graph.nodes[node].get("type")`). -/
structure GNode : Type where
  name : String
  ntype : Option String
  genre : Option String
deriving DecidableEq

/-- The undirected user-movie graph: nodes in insertion order, and undirected
weighted edges, at most one per unordered node pair. -/
structure UMGraph : Type where
  nodes : List GNode
  edges : List ((String × String) × ℚ)
deriving DecidableEq

def UMGraph.emptyG : UMGraph := ⟨[], []⟩

/-- Node membership, `x in graph`. -/
def UMGraph.hasNode (g : UMGraph) (x : String) : Bool :=
  g.nodes.any fun nd => nd.name = x

/-- Whether a stored edge connects the unordered pair `{u, v}`. -/
def edgeMatches (u v : String) (e : (String × String) × ℚ) : Bool :=
  (e.1.1 = u ∧ e.1.2 = v) ∨ (e.1.1 = v ∧ e.1.2 = u)

/-- `graph.add_edge(u, v, weight=w)` on a graph that already contains both
endpoints: overwrites the weight if the edge exists, otherwise records a new
edge. (networkx would also insert missing endpoints, but every caller in this
program inserts both nodes first.) -/
def UMGraph.addEdgeWeight (g : UMGraph) (u v : String) (w : ℚ) : UMGraph :=
  if g.edges.any (edgeMatches u v)
  then { g with edges := g.edges.map fun e => if edgeMatches u v e then (e.1, w) else e }
  else { g with edges := g.edges ++ [((u, v), w)] }

/-- `graph.neighbors(x)`: the nodes adjacent to `x`. -/
def UMGraph.neighbors (g : UMGraph) (x : String) : List String :=
  g.edges.filterMap fun e =>
    if e.1.1 = x then some e.1.2 else if e.1.2 = x then some e.1.1 else none

/-- One entry of the list handed to `build_user_movie_graph`. The function is
duck-typed: `load_user_movie_data` produces dicts with keys `"user"`,
`"movie"`, `"rating"`, `"genre"`, while `MovieRecommender.load_data` produces
3-tuples `(user_id, movie_title, rating)`. -/
inductive RatingsEntry : Type
  | dict (user movie : String) (rating : ℚ) (genre : String)
  | tup (user_id : Int) (movie : String) (rating : ℚ)
deriving DecidableEq

/-- Whether an entry is one of the 3-tuples built by `load_data`. -/
def RatingsEntry.isTup : RatingsEntry → Bool
  | .tup _ _ _ => true
  | _ => false

/-- The loop body of `build_user_movie_graph` for a dict entry: add the user
node and the movie node when absent, then set the edge weight to the rating. -/
def graphStep (g : UMGraph) (user movie : String) (rating : ℚ) (genre : String) : UMGraph :=
  let g1 := if g.hasNode user then g
            else { g with nodes := g.nodes ++ [⟨user, some "user", none⟩] }
  let g2 := if g1.hasNode movie then g1
            else { g1 with nodes := g1.nodes ++ [⟨movie, some "movie", some genre⟩] }
  g2.addEdgeWeight user movie rating

/-- The loop of `build_user_movie_graph` over the remaining entries.
Indexing a 3-tuple with the string key `"user"` (`entry["user"]`) raises
`TypeError` in Python, which aborts the whole call. -/
def buildGraphFrom (g : UMGraph) : List RatingsEntry → Except PyErr UMGraph
  | [] => .ok g
  | .dict user movie rating genre :: rest => buildGraphFrom (graphStep g user movie rating genre) rest
  | .tup _ _ _ :: _ => .error .typeError

/-- `build_user_movie_graph(user_movie_data)` from `user_movie_graph.py`. -/
def build_user_movie_graph (data : List RatingsEntry) : Except PyErr UMGraph :=
  buildGraphFrom UMGraph.emptyG data

/-! ## Similarity search (`find_similar_users`) -/

/-- Insert an element into a descending-sorted list, after every element with
a strictly larger score and before every element with an equal or smaller one
(the element being inserted precedes the tail elements in the original list,
so this preserves the original order of equal scores). -/
def insertDesc {α : Type} (x : α × ℚ) : List (α × ℚ) → List (α × ℚ)
  | [] => [x]
  | y :: ys => if x.2 < y.2 then y :: insertDesc x ys else x :: y :: ys

/-- Stable descending sort by the second (score) component, modelling
`sorted(xs, key=lambda x: x[1], reverse=True)`. A stable sort's output is
uniquely determined by the key order and the input order, so this insertion
sort computes exactly what Python's stable sort returns. -/
def sortByScoreDesc {α : Type} : List (α × ℚ) → List (α × ℚ)
  | [] => []
  | x :: xs => insertDesc x (sortByScoreDesc xs)

/-- The Jaccard similarity computed in the body of `find_similar_users`
(lines computing `intersection`, `union` and `similarity`):
`len(target_movies & other_movies) / len(target_movies | other_movies)`. -/
def jaccardSim (g : UMGraph) (a b : String) : ℚ :=
  (((g.neighbors a).toFinset ∩ (g.neighbors b).toFinset).card : ℚ) /
    (((g.neighbors a).toFinset ∪ (g.neighbors b).toFinset).card : ℚ)

/-- The per-node body of the loop in `find_similar_users`: score a node when
it is a user node other than the target, its union with the target is
nonempty (`if not union: continue`) and the similarity is strictly positive. -/
def simEntry (g : UMGraph) (target_user : String) (nd : GNode) : Option (String × ℚ) :=
  if nd.ntype = some "user" ∧ nd.name ≠ target_user then
    if (g.neighbors target_user).toFinset ∪ (g.neighbors nd.name).toFinset = ∅ then none
    else if 0 < jaccardSim g target_user nd.name
    then some (nd.name, jaccardSim g target_user nd.name)
    else none
  else none

/-- The default value of the `top_n` parameter in the source signature
`find_similar_users(graph, target_user, top_n=3)`. -/
def find_similar_users_default_top_n : Nat := 3

/-- `find_similar_users(graph, target_user, top_n)` from
`user_movie_graph.py`: empty result when the target is absent, otherwise the
strictly-positive Jaccard scores of the other user nodes, sorted descending,
truncated to `top_n`. -/
def find_similar_users (g : UMGraph) (target_user : String) (top_n : Nat) :
    List (String × ℚ) :=
  if g.hasNode target_user = false then []
  else (sortByScoreDesc (g.nodes.filterMap (simEntry g target_user))).take top_n

/-! ## `MovieRecommender.load_data` (`interactive.py`) -/

/-- The body of the movies-file loop in `load_data` for one data row:
raise `ValueError` unless the row has 16 columns, skip the row (with a
printed report) when the stripped year is not all digits, otherwise convert
the numeric fields — `int(year)`, `int(str(length).replace("min", ""))`,
`float(rating)`, `int(votes)`, any of which raises `ValueError` — and store
the movie in the title-keyed dict (last write wins). -/
def processMovieRow (movies : List (String × Movie)) (row : List String) :
    Except PyErr (List (String × Movie)) :=
  if row.length ≠ 16 then .error .valueError
  else if pyStripIsDigit (row.getD 2 "") = false then .ok movies
  else
    match pyInt (row.getD 2 "") with
    | .error e => .error e
    | .ok y =>
      match pyIntL (removeMin (row.getD 4 "").data) with
      | .error e => .error e
      | .ok len =>
        match pyFloat (row.getD 6 "") with
        | .error e => .error e
        | .ok r =>
          match pyInt (row.getD 14 "") with
          | .error e => .error e
          | .ok v =>
            .ok (dictSet movies (row.getD 1 "")
              { title := row.getD 1 "",
                year := y,
                length := len,
                genre := row.getD 5 "",
                rating := r,
                director := row.getD 9 "",
                lead_actors := [row.getD 10 "", row.getD 11 "", row.getD 12 "", row.getD 13 ""],
                votes := v })

/-- The mutable state threaded through the ratings-file loop of `load_data`:
the movie catalog, the user directory, and the accumulated `ratings` list of
3-tuples. -/
structure LoadState : Type where
  movies : List (String × Movie)
  users : List (Int × User)
  ratings : List RatingsEntry
deriving DecidableEq

/-- The user-directory updates of one ratings-file loop iteration: create
the user when absent (`self.users[user_id] = User(user_id, set())`), and
when the movie title is in the catalog add that movie to the user's watched
set (`self.users[user_id].watched_movies.add(self.movies[movie_title])`). -/
def ratingUserUpdate (movies : List (String × Movie)) (users : List (Int × User))
    (user_id : Int) (movie_title : String) : List (Int × User) :=
  let users1 :=
    if dictHasKey users user_id then users
    else dictSet users user_id (User.mk user_id [])
  match movies.find? (fun p => p.1 = movie_title) with
  | some pm => users1.map fun q =>
      if q.1 = user_id then (q.1, addWatched q.2 pm.2) else q
  | none => users1

/-- The body of the ratings-file loop in `load_data` for one data row:
raise `ValueError` unless the row has 4 columns, convert `int(row[0])` and
`float(row[2])` (raising `ValueError` on failure), append the 3-tuple
`(user_id, movie_title, rating)` to `ratings`, and apply the user-directory
updates. -/
def processRatingRow (st : LoadState) (row : List String) : Except PyErr LoadState :=
  if row.length ≠ 4 then .error .valueError
  else
    match pyInt (row.getD 0 "") with
    | .error e => .error e
    | .ok user_id =>
      match pyFloat (row.getD 2 "") with
      | .error e => .error e
      | .ok rating =>
        .ok { movies := st.movies,
              users := ratingUserUpdate st.movies st.users user_id (row.getD 1 ""),
              ratings := st.ratings ++ [RatingsEntry.tup user_id (row.getD 1 "") rating] }

/-- Run a row-processing loop over the data rows, stopping at the first
raised exception; returns the state reached so far and the exception, if any
(a Python `for` loop aborted by an exception keeps all mutations made by the
completed iterations). -/
def foldRows {σ α : Type} (f : σ → α → Except PyErr σ) : σ → List α → σ × Option PyErr
  | st, [] => (st, none)
  | st, r :: rs =>
    match f st r with
    | .ok st2 => foldRows f st2 rs
    | .error e => (st, some e)

/-- How `load_data` ends: normally, with an exception caught by its
`except ValueError` / `except RuntimeError` clauses, or with an exception
that propagates to the caller. -/
inductive LoadEnd : Type
  | success
  | caughtErr (e : PyErr)
  | uncaughtErr (e : PyErr)
deriving DecidableEq

/-- The recommender state after `load_data` returns or raises. -/
structure LoadResult : Type where
  movies : List (String × Movie)
  users : List (Int × User)
  graph : Option UMGraph
  outcome : LoadEnd
deriving DecidableEq

/-- Which exceptions `load_data`'s `except` clauses catch: only `ValueError`
and `RuntimeError`. -/
def catchOf (e : PyErr) : LoadEnd :=
  if e = .valueError ∨ e = .runtimeError then .caughtErr e else .uncaughtErr e

/-- `MovieRecommender.load_data` on already-read CSV data rows (header rows
removed; file-system behaviour is outside this model): process the movies
file, then the ratings file, then call `build_user_movie_graph` on the
accumulated list of 3-tuples and assign `self.graph` on success. `movies0`,
`users0` and `graph0` are the instance attributes on entry; printed reports
are ignored. -/
def load_data (movies0 : List (String × Movie)) (users0 : List (Int × User))
    (graph0 : Option UMGraph) (movieRows ratingRows : List (List String)) : LoadResult :=
  match foldRows processMovieRow movies0 movieRows with
  | (movies1, some e) => ⟨movies1, users0, graph0, catchOf e⟩
  | (movies1, none) =>
    match foldRows processRatingRow ⟨movies1, users0, []⟩ ratingRows with
    | (st1, some e) => ⟨st1.movies, st1.users, graph0, catchOf e⟩
    | (st1, none) =>
      match build_user_movie_graph st1.ratings with
      | .ok g => ⟨st1.movies, st1.users, some g, .success⟩
      | .error e => ⟨st1.movies, st1.users, graph0, catchOf e⟩

/-! ## Login (`MovieRecommender.interactive_session`, the `'new'` branch) -/

/-- Python `max(keys)`: raises `ValueError` on an empty sequence. -/
def pyMax : List Int → Except PyErr Int
  | [] => .error .valueError
  | k :: ks => .ok (ks.foldl max k)

/-- The `'new'` branch of the login loop in `interactive_session`:
`new_id = max(self.users.keys()) + 1`, store a `User` with an empty watched
set under `new_id`, and make it the current user. Returns the updated user
directory and the now-active user. -/
def loginNew (users : List (Int × User)) : Except PyErr (List (Int × User) × User) :=
  match pyMax (users.map Prod.fst) with
  | .error e => .error e
  | .ok mx =>
      let new_id := mx + 1
      let u : User := ⟨new_id, []⟩
      .ok (dictSet users new_id u, u)

/-! ## `MovieRecommender.get_recommendations` (`interactive.py`) -/

/-- The recommender instance state used by `get_recommendations`. -/
structure MovieRecommender : Type where
  movies : List (String × Movie)
  users : List (Int × User)
  current_user : Option User
  graph : Option UMGraph
deriving DecidableEq

/-- `movie_scores.get(movie, 0)`. -/
def scoreOf (scores : List (Movie × ℚ)) (m : Movie) : ℚ :=
  dictGetD scores m 0

/-- `movie_scores[movie] = movie_scores.get(movie, 0) + v`. -/
def scoreAdd (scores : List (Movie × ℚ)) (m : Movie) (v : ℚ) : List (Movie × ℚ) :=
  dictSet scores m (scoreOf scores m + v)

/-- The call `find_similar_users(self.graph, str(current_id))` made by
`get_recommendations`: `top_n` is not passed, so the source default
`top_n=3` applies. -/
def recSimilarUsers (g : UMGraph) (current_id : Int) : List (String × ℚ) :=
  find_similar_users g (toString current_id) find_similar_users_default_top_n

/-- The inner loop of the collaborative pass: for every movie the similar
user watched that the current user has not, add `similarity * movie.rating`
to its score. -/
def collabMovies (watched : List Movie) (similarity : ℚ)
    (scores : List (Movie × ℚ)) (similarWatched : List Movie) : List (Movie × ℚ) :=
  similarWatched.foldl
    (fun sc movie =>
      if movie ∈ watched then sc else scoreAdd sc movie (similarity * movie.rating))
    scores

/-- One iteration of the collaborative pass of `get_recommendations`:
`int(similar_user_id)` (which can raise `ValueError`), the lookup
`self.users[...]` (which can raise `KeyError`), then the inner loop over
that user's watched movies. -/
def collabStep (users : List (Int × User)) (watched : List Movie)
    (scores : List (Movie × ℚ)) (su : String × ℚ) : Except PyErr (List (Movie × ℚ)) :=
  match pyInt su.1 with
  | .error e => .error e
  | .ok sid =>
    match dictGetE users sid with
    | .error e => .error e
    | .ok simUser => .ok (collabMovies watched su.2 scores simUser.watched_movies)

/-- The collaborative pass: iterate `collabStep` over the similar users,
propagating any raised exception. -/
def collabFold (users : List (Int × User)) (watched : List Movie) :
    List (Movie × ℚ) → List (String × ℚ) → Except PyErr (List (Movie × ℚ))
  | sc, [] => .ok sc
  | sc, su :: rest =>
    match collabStep users watched sc su with
    | .error e => .error e
    | .ok sc2 => collabFold users watched sc2 rest

/-- The content pass of `get_recommendations`: for every catalog movie not
watched by the current user, add `movie.rating * genre_bonus` to its score,
with bonus `1.0` when the movie's genre is among the watched genres and
`0.3` otherwise. -/
def contentPass (watched : List Movie) (user_genres : Finset String)
    (catalog : List Movie) (scores : List (Movie × ℚ)) : List (Movie × ℚ) :=
  catalog.foldl
    (fun sc movie =>
      if movie ∈ watched then sc
      else scoreAdd sc movie (movie.rating * (if movie.genre ∈ user_genres then 1 else 3/10)))
    scores

/-- The genres of the current user's watched movies,
`{m.genre for m in self.current_user.watched_movies}`. -/
def userGenres (u : User) : Finset String :=
  (u.watched_movies.map Movie.genre).toFinset

/-- `MovieRecommender.get_recommendations(current_user)`: raises
`RuntimeError` when `self.current_user` is unset, `ValueError` when the
passed object is not a user (modelled by `none`), and `TypeError` when
`self.graph` is `None` (Python's `target_user not in None`); otherwise runs
the collaborative pass over the top similar users, then the content pass
over the catalog, and returns the scores sorted descending, truncated to 10.
Note the parameter `current_user` supplies the id for the similarity search
while `self.current_user` supplies the watched set and genres, exactly as in
the source. -/
def get_recommendations (mr : MovieRecommender) (current_user : Option User) :
    Except PyErr (List (Movie × ℚ)) :=
  match mr.current_user with
  | none => .error .runtimeError
  | some cu =>
    match current_user with
    | none => .error .valueError
    | some cup =>
      match mr.graph with
      | none => .error .typeError
      | some g =>
        match collabFold mr.users cu.watched_movies [] (recSimilarUsers g cup.user_id) with
        | .error e => .error e
        | .ok scores1 =>
          .ok ((sortByScoreDesc (contentPass cu.watched_movies (userGenres cu)
              (mr.movies.map Prod.snd) scores1)).take 10)

/-! ## Sorting lemmas -/

theorem mem_insertDesc {α : Type} (x y : α × ℚ) (l : List (α × ℚ)) :
    y ∈ insertDesc x l ↔ y = x ∨ y ∈ l := by
  induction l with
  | nil => simp [insertDesc]
  | cons z zs ih =>
    by_cases h : x.2 < z.2
    · simp only [insertDesc, if_pos h, List.mem_cons, ih]
      tauto
    · simp only [insertDesc, if_neg h, List.mem_cons]

theorem pairwise_insertDesc {α : Type} (x : α × ℚ) (l : List (α × ℚ))
    (h : l.Pairwise (fun a b => b.2 ≤ a.2)) :
    (insertDesc x l).Pairwise (fun a b => b.2 ≤ a.2) := by
  induction l with
  | nil => simp [insertDesc]
  | cons z zs ih =>
    rcases List.pairwise_cons.1 h with ⟨hz, hzs⟩
    by_cases hx : x.2 < z.2
    · simp only [insertDesc, if_pos hx]
      refine List.pairwise_cons.2 ⟨?_, ih hzs⟩
      intro w hw
      rcases (mem_insertDesc x w zs).1 hw with rfl | hwz
      · exact le_of_lt hx
      · exact hz w hwz
    · simp only [insertDesc, if_neg hx]
      refine List.pairwise_cons.2 ⟨?_, h⟩
      intro w hw
      rcases List.mem_cons.1 hw with rfl | hwz
      · exact not_lt.1 hx
      · exact le_trans (hz w hwz) (not_lt.1 hx)

theorem sortByScoreDesc_pairwise {α : Type} (l : List (α × ℚ)) :
    (sortByScoreDesc l).Pairwise (fun a b => b.2 ≤ a.2) := by
  induction l with
  | nil => exact List.Pairwise.nil
  | cons x xs ih => exact pairwise_insertDesc x _ ih

theorem mem_sortByScoreDesc {α : Type} (y : α × ℚ) (l : List (α × ℚ)) :
    y ∈ sortByScoreDesc l ↔ y ∈ l := by
  induction l with
  | nil => exact Iff.rfl
  | cons x xs ih =>
    rw [sortByScoreDesc, mem_insertDesc, List.mem_cons, ih]

/-! ## Lemmas about `find_similar_users` -/

theorem simEntry_some (g : UMGraph) (target : String) (nd : GNode) (p : String × ℚ)
    (h : simEntry g target nd = some p) :
    p.1 = nd.name ∧ p.2 = jaccardSim g target nd.name ∧ 0 < p.2 ∧ nd.name ≠ target := by
  unfold simEntry at h
  split_ifs at h with h1 h2 h3
  · cases h
    exact ⟨rfl, rfl, h3, h1.2⟩

theorem find_similar_users_length_le (g : UMGraph) (t : String) (n : Nat) :
    (find_similar_users g t n).length ≤ n := by
  unfold find_similar_users
  split
  · simp
  · exact List.length_take_le n _

theorem find_similar_users_sorted (g : UMGraph) (t : String) (n : Nat) :
    (find_similar_users g t n).Pairwise (fun a b => b.2 ≤ a.2) := by
  unfold find_similar_users
  split
  · exact List.Pairwise.nil
  · exact List.Pairwise.sublist (List.take_sublist n _) (sortByScoreDesc_pairwise _)

theorem find_similar_users_mem (g : UMGraph) (t : String) (n : Nat) (p : String × ℚ)
    (hp : p ∈ find_similar_users g t n) :
    p.2 = jaccardSim g t p.1 ∧ 0 < p.2 ∧ p.1 ≠ t := by
  unfold find_similar_users at hp
  split at hp
  · simp at hp
  · have hp2 := List.take_subset _ _ hp
    rw [mem_sortByScoreDesc] at hp2
    rcases List.mem_filterMap.1 hp2 with ⟨nd, _, hnd⟩
    obtain ⟨h1, h2, h3, h4⟩ := simEntry_some g t nd p hnd
    rw [h1]
    exact ⟨h2, h3, h4⟩

theorem find_similar_users_absent (g : UMGraph) (t : String) (n : Nat)
    (h : g.hasNode t = false) : find_similar_users g t n = [] := by
  unfold find_similar_users
  rw [h]
  rfl

/-! ## The scenario of the spec: users 1 and 2 both rated Inception 9.0, and
user 2 additionally rated Matrix 8.0 -/

def scenarioEntries : List RatingsEntry :=
  [ .dict "1" "Inception" 9 "Sci-Fi",
    .dict "2" "Inception" 9 "Sci-Fi",
    .dict "2" "Matrix" 8 "Sci-Fi" ]

/-- The graph `build_user_movie_graph` produces from `scenarioEntries`. -/
def scenarioGraph : UMGraph :=
  { nodes := [⟨"1", some "user", none⟩, ⟨"Inception", some "movie", some "Sci-Fi"⟩,
              ⟨"2", some "user", none⟩, ⟨"Matrix", some "movie", some "Sci-Fi"⟩],
    edges := [(("1", "Inception"), 9), (("2", "Inception"), 9), (("2", "Matrix"), 8)] }

unseal Rat.mul Rat.inv Rat.add in
/-- C4: `find_similar_users` returns at most `top_n` pairs sorted by
similarity descending, every returned similarity is strictly positive, an
absent target yields `[]` rather than an error, and on the concrete
scenario graph (users 1 and 2 rated Inception 9.0, user 2 also rated
Matrix 8.0) the call `find_similar_users(graph, "1", top_n=3)` returns
`[("2", 0.5)]`. -/
theorem claimC4 :
    (∀ (g : UMGraph) (t : String) (n : Nat),
        (find_similar_users g t n).length ≤ n
        ∧ (find_similar_users g t n).Pairwise (fun a b => b.2 ≤ a.2)
        ∧ (∀ p ∈ find_similar_users g t n, 0 < p.2)
        ∧ (g.hasNode t = false → find_similar_users g t n = []))
    ∧ build_user_movie_graph scenarioEntries = .ok scenarioGraph
    ∧ find_similar_users scenarioGraph "1" 3 = [("2", 1/2)] := by
  refine ⟨?_, by decide, by decide⟩
  intro g t n
  exact ⟨find_similar_users_length_le g t n, find_similar_users_sorted g t n,
    fun p hp => (find_similar_users_mem g t n p hp).2.1,
    find_similar_users_absent g t n⟩

/-- Witness for C4: the bounds and the absent-target behaviour evaluated on
the concrete scenario graph. -/
theorem claimC4_witness :
    (find_similar_users scenarioGraph "1" 3).length ≤ 3
    ∧ (0 : ℚ) < 1/2
    ∧ scenarioGraph.hasNode "nobody" = false
    ∧ find_similar_users scenarioGraph "nobody" 3 = [] :=
  ⟨(claimC4.1 scenarioGraph "1" 3).1,
    (claimC4.1 scenarioGraph "1" 3).2.2.1 ("2", 1/2)
      (by rw [claimC4.2.2]; exact List.mem_singleton.2 rfl),
    by decide,
    (claimC4.1 scenarioGraph "nobody" 3).2.2.2 (by decide)⟩

/-- C5: the Jaccard similarity computed by `find_similar_users` is symmetric
and lies in `[0, 1]` for users with at least one rated movie each; every
returned pair's similarity is the Jaccard similarity between the target and
that user; and a user is never compared with itself (no self pair ever
appears in a result). -/
theorem claimC5 :
    (∀ (g : UMGraph) (a b : String),
        ((g.neighbors a).toFinset).Nonempty → ((g.neighbors b).toFinset).Nonempty →
        jaccardSim g a b = jaccardSim g b a
          ∧ 0 ≤ jaccardSim g a b ∧ jaccardSim g a b ≤ 1)
    ∧ (∀ (g : UMGraph) (t : String) (n : Nat) (p : String × ℚ),
        p ∈ find_similar_users g t n → p.2 = jaccardSim g t p.1 ∧ p.1 ≠ t)
    ∧ (∀ (g : UMGraph) (u : String) (n : Nat) (s : ℚ),
        (u, s) ∉ find_similar_users g u n) := by
  have hmem : ∀ (g : UMGraph) (t : String) (n : Nat) (p : String × ℚ),
      p ∈ find_similar_users g t n → p.2 = jaccardSim g t p.1 ∧ p.1 ≠ t := by
    intro g t n p hp
    obtain ⟨h1, _, h3⟩ := find_similar_users_mem g t n p hp
    exact ⟨h1, h3⟩
  refine ⟨?_, hmem, ?_⟩
  · intro g a b _ _
    refine ⟨?_, ?_, ?_⟩
    · unfold jaccardSim
      rw [Finset.inter_comm, Finset.union_comm]
    · exact div_nonneg (Nat.cast_nonneg _) (Nat.cast_nonneg _)
    · exact div_le_one_of_le₀
        (by exact_mod_cast Finset.card_le_card Finset.inter_subset_union)
        (Nat.cast_nonneg _)
  · intro g u n s h
    exact (hmem g u n (u, s) h).2 rfl

unseal Rat.mul Rat.inv Rat.add in
/-- Witness for C5: symmetry and bounds evaluated between users 1 and 2 of
the scenario graph, and the absence of the self pair for user 1. -/
theorem claimC5_witness :
    ((scenarioGraph.neighbors "1").toFinset).Nonempty
    ∧ ((scenarioGraph.neighbors "2").toFinset).Nonempty
    ∧ (jaccardSim scenarioGraph "1" "2" = jaccardSim scenarioGraph "2" "1"
        ∧ 0 ≤ jaccardSim scenarioGraph "1" "2" ∧ jaccardSim scenarioGraph "1" "2" ≤ 1)
    ∧ ("1", (1 : ℚ)/2) ∉ find_similar_users scenarioGraph "1" 3 :=
  ⟨by decide, by decide,
    claimC5.1 scenarioGraph "1" "2" (by decide) (by decide),
    claimC5.2.2 scenarioGraph "1" 3 (1/2)⟩

/-- C10: `get_recommendations` invokes `find_similar_users` without passing
`top_n`, so the source default `top_n=3` applies and the collaborative pass
draws contributions from at most the 3 most similar users. -/
theorem claimC10 :
    ∀ (g : UMGraph) (uid : Int),
      recSimilarUsers g uid = find_similar_users g (toString uid) 3
      ∧ find_similar_users_default_top_n = 3
      ∧ (recSimilarUsers g uid).length ≤ 3 := by
  intro g uid
  exact ⟨rfl, rfl, find_similar_users_length_le g (toString uid) 3⟩

/-! ## Dict and score lemmas -/

theorem dictGetD_dictSet_self {κ α : Type} [DecidableEq κ] (d : List (κ × α)) (k : κ)
    (v dflt : α) : dictGetD (dictSet d k v) k dflt = v := by
  induction d with
  | nil => simp [dictSet, dictGetD]
  | cons p rest ih =>
    by_cases hp : p.1 = k
    · simp [dictSet, hp, dictGetD]
    · simp [dictSet, hp, dictGetD, ih]

theorem dictGetD_dictSet_ne {κ α : Type} [DecidableEq κ] (d : List (κ × α)) (k k' : κ)
    (v dflt : α) (h : k' ≠ k) :
    dictGetD (dictSet d k v) k' dflt = dictGetD d k' dflt := by
  induction d with
  | nil => simp [dictSet, dictGetD, Ne.symm h]
  | cons p rest ih =>
    by_cases hp : p.1 = k
    · rw [dictSet, if_pos hp, dictGetD, dictGetD, hp]
      simp [Ne.symm h]
    · rw [dictSet, if_neg hp, dictGetD, dictGetD, ih]

theorem dictSet_forall {κ α : Type} [DecidableEq κ] (P : κ × α → Prop) (d : List (κ × α))
    (k : κ) (v : α) (hd : ∀ p ∈ d, P p) (hkv : P (k, v)) : ∀ p ∈ dictSet d k v, P p := by
  induction d with
  | nil =>
    intro p hp
    rw [dictSet, List.mem_singleton] at hp
    exact hp ▸ hkv
  | cons q rest ih =>
    intro p hp
    by_cases hq : q.1 = k
    · rw [dictSet, if_pos hq] at hp
      rcases List.mem_cons.1 hp with rfl | hp2
      · exact hkv
      · exact hd p (List.mem_cons_of_mem q hp2)
    · rw [dictSet, if_neg hq] at hp
      rcases List.mem_cons.1 hp with rfl | hp2
      · exact hd p (List.mem_cons_self p rest)
      · exact ih (fun r hr => hd r (List.mem_cons_of_mem q hr)) p hp2

theorem scoreOf_scoreAdd_self (sc : List (Movie × ℚ)) (m : Movie) (v : ℚ) :
    scoreOf (scoreAdd sc m v) m = scoreOf sc m + v :=
  dictGetD_dictSet_self sc m _ 0

theorem scoreOf_scoreAdd_ne (sc : List (Movie × ℚ)) (m m' : Movie) (v : ℚ) (h : m' ≠ m) :
    scoreOf (scoreAdd sc m v) m' = scoreOf sc m' :=
  dictGetD_dictSet_ne sc m m' _ 0 h

/-! ## Content-pass lemmas -/

theorem contentPass_scoreOf (watched : List Movie) (genres : Finset String) (m : Movie)
    (hm : m ∉ watched) :
    ∀ (catalog : List Movie) (sc : List (Movie × ℚ)),
      scoreOf (contentPass watched genres catalog sc) m
        = scoreOf sc m
          + (catalog.count m : ℚ) * (m.rating * (if m.genre ∈ genres then 1 else 3/10)) := by
  intro catalog
  induction catalog with
  | nil => intro sc; simp [contentPass]
  | cons c cat ih =>
    intro sc
    have hstep : contentPass watched genres (c :: cat) sc
        = contentPass watched genres cat
            (if c ∈ watched then sc
             else scoreAdd sc c (c.rating * (if c.genre ∈ genres then 1 else 3/10))) := by
      simp only [contentPass, List.foldl_cons]
    rw [hstep, ih]
    by_cases hc : c ∈ watched
    · have hcm : ¬ c = m := fun hh => hm (hh ▸ hc)
      simp [hc, List.count_cons, hcm]
    · by_cases hcm : c = m
      · subst hcm
        rw [if_neg hc, scoreOf_scoreAdd_self]
        simp only [List.count_cons, beq_self_eq_true, if_true]
        push_cast
        ring
      · rw [if_neg hc, scoreOf_scoreAdd_ne sc c m _ (fun hh => hcm hh.symm)]
        simp [List.count_cons, hcm]

/-! ## Watched-exclusion invariant lemmas -/

theorem scoreAdd_unwatched (watched : List Movie) (sc : List (Movie × ℚ)) (m : Movie) (v : ℚ)
    (hsc : ∀ p ∈ sc, p.1 ∉ watched) (hm : m ∉ watched) :
    ∀ p ∈ scoreAdd sc m v, p.1 ∉ watched :=
  dictSet_forall (fun p => p.1 ∉ watched) sc m _ hsc hm

theorem collabMovies_unwatched (watched : List Movie) (sim : ℚ) :
    ∀ (lst : List Movie) (sc : List (Movie × ℚ)), (∀ p ∈ sc, p.1 ∉ watched) →
      ∀ p ∈ collabMovies watched sim sc lst, p.1 ∉ watched := by
  intro lst
  induction lst with
  | nil => intro sc hsc; simpa [collabMovies] using hsc
  | cons mv rest ih =>
    intro sc hsc
    have hstep : collabMovies watched sim sc (mv :: rest)
        = collabMovies watched sim
            (if mv ∈ watched then sc else scoreAdd sc mv (sim * mv.rating)) rest := by
      simp only [collabMovies, List.foldl_cons]
    rw [hstep]
    apply ih
    by_cases hmv : mv ∈ watched
    · simpa [hmv] using hsc
    · rw [if_neg hmv]
      exact scoreAdd_unwatched watched sc mv _ hsc hmv

theorem contentPass_unwatched (watched : List Movie) (genres : Finset String) :
    ∀ (catalog : List Movie) (sc : List (Movie × ℚ)), (∀ p ∈ sc, p.1 ∉ watched) →
      ∀ p ∈ contentPass watched genres catalog sc, p.1 ∉ watched := by
  intro catalog
  induction catalog with
  | nil => intro sc hsc; simpa [contentPass] using hsc
  | cons c cat ih =>
    intro sc hsc
    have hstep : contentPass watched genres (c :: cat) sc
        = contentPass watched genres cat
            (if c ∈ watched then sc
             else scoreAdd sc c (c.rating * (if c.genre ∈ genres then 1 else 3/10))) := by
      simp only [contentPass, List.foldl_cons]
    rw [hstep]
    apply ih
    by_cases hc : c ∈ watched
    · simpa [hc] using hsc
    · rw [if_neg hc]
      exact scoreAdd_unwatched watched sc c _ hsc hc

theorem collabStep_unwatched (users : List (Int × User)) (watched : List Movie)
    (sc sc2 : List (Movie × ℚ)) (su : String × ℚ) (hsc : ∀ p ∈ sc, p.1 ∉ watched)
    (h : collabStep users watched sc su = .ok sc2) : ∀ p ∈ sc2, p.1 ∉ watched := by
  unfold collabStep at h
  split at h
  · exact Except.noConfusion h
  · split at h
    · exact Except.noConfusion h
    · injection h with h2
      subst h2
      exact collabMovies_unwatched watched su.2 _ sc hsc

theorem collabFold_unwatched (users : List (Int × User)) (watched : List Movie) :
    ∀ (sus : List (String × ℚ)) (sc sc2 : List (Movie × ℚ)),
      (∀ p ∈ sc, p.1 ∉ watched) → collabFold users watched sc sus = .ok sc2 →
      ∀ p ∈ sc2, p.1 ∉ watched := by
  intro sus
  induction sus with
  | nil =>
    intro sc sc2 hsc h
    rw [collabFold] at h
    injection h with h2
    subst h2
    exact hsc
  | cons su rest ih =>
    intro sc sc2 hsc h
    rw [collabFold] at h
    split at h
    · exact Except.noConfusion h
    · rename_i scm heq
      exact ih scm sc2 (collabStep_unwatched users watched sc scm su hsc heq) h

/-- C6: in the content pass exactly as `get_recommendations` invokes it
(same watched set, genre set and catalog), every catalog movie not watched
by the target user gains an additional `movie.rating * genre_bonus` on top
of whatever score it already carries from the collaborative pass, where the
bonus is `1.0` when the movie's genre appears among the watched genres and
`0.3` otherwise; the two contributions accumulate additively. -/
theorem claimC6 :
    ∀ (mr : MovieRecommender) (u : User) (sc : List (Movie × ℚ)) (m : Movie),
      m ∉ u.watched_movies → (mr.movies.map Prod.snd).count m = 1 →
      scoreOf (contentPass u.watched_movies (userGenres u) (mr.movies.map Prod.snd) sc) m
        = scoreOf sc m + m.rating * (if m.genre ∈ userGenres u then 1 else 3/10) := by
  intro mr u sc m hm hcount
  rw [contentPass_scoreOf u.watched_movies (userGenres u) m hm (mr.movies.map Prod.snd) sc,
    hcount]
  push_cast
  ring

/-! ## Concrete example data for the recommendation claims -/

def movieA : Movie := ⟨"A", 2000, 100, "Drama", 7, "dirA", ["a1", "a2", "a3", "a4"], 100⟩

def movieB : Movie := ⟨"B", 2001, 101, "Comedy", 8, "dirB", ["b1", "b2", "b3", "b4"], 100⟩

def movieD : Movie := ⟨"D", 1999, 90, "Drama", 6, "dirD", ["d1", "d2", "d3", "d4"], 50⟩

/-- A user who watched only the Drama movie `movieD`. -/
def exUserD : User := ⟨7, [movieD]⟩

/-- A recommender whose catalog holds `movieA` and `movieB`. -/
def mrC6 : MovieRecommender :=
  ⟨[("A", movieA), ("B", movieB)], [(7, exUserD)], some exUserD, none⟩

unseal Rat.mul Rat.inv Rat.add in
/-- Witness for C6: the spec's own scenario — catalog movies A (Drama 7.0)
and B (Comedy 8.0), active user watched only a Drama movie; A scores 7.0
and B scores 2.4 in the content pass when neither got a collaborative
contribution. -/
theorem claimC6_witness :
    movieA ∉ exUserD.watched_movies
    ∧ movieB ∉ exUserD.watched_movies
    ∧ (mrC6.movies.map Prod.snd).count movieA = 1
    ∧ (mrC6.movies.map Prod.snd).count movieB = 1
    ∧ scoreOf (contentPass exUserD.watched_movies (userGenres exUserD)
        (mrC6.movies.map Prod.snd) []) movieA
        = scoreOf [] movieA + movieA.rating * (if movieA.genre ∈ userGenres exUserD then 1 else 3/10)
    ∧ scoreOf (contentPass exUserD.watched_movies (userGenres exUserD)
        (mrC6.movies.map Prod.snd) []) movieB
        = scoreOf [] movieB + movieB.rating * (if movieB.genre ∈ userGenres exUserD then 1 else 3/10)
    ∧ scoreOf (contentPass exUserD.watched_movies (userGenres exUserD)
        (mrC6.movies.map Prod.snd) []) movieA = 7
    ∧ scoreOf (contentPass exUserD.watched_movies (userGenres exUserD)
        (mrC6.movies.map Prod.snd) []) movieB = 12/5 :=
  ⟨by decide, by decide, by decide, by decide,
    claimC6 mrC6 exUserD [] movieA (by decide) (by decide),
    claimC6 mrC6 exUserD [] movieB (by decide) (by decide),
    by decide, by decide⟩

/-- C7: no movie in the active user's watched set ever appears in a
recommendation list produced by `get_recommendations`. -/
theorem claimC7 :
    ∀ (mr : MovieRecommender) (u : Option User) (cu : User) (l : List (Movie × ℚ)),
      mr.current_user = some cu →
      get_recommendations mr u = .ok l →
      ∀ p ∈ l, p.1 ∉ cu.watched_movies := by
  intro mr u cu l hcu h p hp
  obtain ⟨mov, usr, cur, gra⟩ := mr
  cases cur with
  | none => exact Option.noConfusion hcu
  | some cu2 =>
    have hcu2 : cu2 = cu := Option.some.inj hcu
    subst hcu2
    cases u with
    | none => exact Except.noConfusion h
    | some cup =>
      cases gra with
      | none => exact Except.noConfusion h
      | some g =>
        simp only [get_recommendations] at h
        split at h
        · exact Except.noConfusion h
        · rename_i sc1 heq
          injection h with h2
          subst h2
          have hcollab : ∀ q ∈ sc1, q.1 ∉ cu2.watched_movies :=
            collabFold_unwatched usr cu2.watched_movies (recSimilarUsers g cup.user_id)
              [] sc1 (by intro q hq; exact absurd hq (List.not_mem_nil q)) heq
          have hcont := contentPass_unwatched cu2.watched_movies (userGenres cu2)
            (mov.map Prod.snd) sc1 hcollab
          have hp2 := List.take_subset _ _ hp
          rw [mem_sortByScoreDesc] at hp2
          exact hcont p hp2

/-! Data for the C7/C8 witnesses: user 1 watched Inception; user 2 watched
Inception and Matrix; the graph is the scenario graph, so user 2 is similar
to user 1 and Matrix gets both a collaborative and a content score
(`1/2 * 8` collaborative plus `8 * 1` content, total `12`). -/

def inceptionM : Movie :=
  ⟨"Inception", 2010, 148, "Sci-Fi", 9, "Nolan", ["n1", "n2", "n3", "n4"], 2000000⟩

def matrixM : Movie :=
  ⟨"Matrix", 1999, 136, "Sci-Fi", 8, "Wachowski", ["w1", "w2", "w3", "w4"], 1800000⟩

def exUser1 : User := ⟨1, [inceptionM]⟩

def exUser2 : User := ⟨2, [inceptionM, matrixM]⟩

def mrEx : MovieRecommender :=
  ⟨[("Inception", inceptionM), ("Matrix", matrixM)],
    [(1, exUser1), (2, exUser2)], some exUser1, some scenarioGraph⟩

unseal Rat.mul Rat.inv Rat.add in
/-- Witness for C7: the concrete run on `mrEx` returns only Matrix, and
Matrix is indeed not in user 1's watched set. -/
theorem claimC7_witness :
    mrEx.current_user = some exUser1
    ∧ get_recommendations mrEx (some exUser1) = .ok [(matrixM, 12)]
    ∧ (matrixM, (12 : ℚ)) ∈ [(matrixM, (12 : ℚ))]
    ∧ matrixM ∉ exUser1.watched_movies :=
  ⟨rfl, by decide, List.mem_singleton.2 rfl,
    claimC7 mrEx (some exUser1) exUser1 [(matrixM, 12)] rfl (by decide)
      (matrixM, 12) (List.mem_singleton.2 rfl)⟩

/-- C8: every recommendation list produced by `get_recommendations` has
length at most 10 and is sorted by accumulated score in descending order. -/
theorem claimC8 :
    ∀ (mr : MovieRecommender) (u : Option User) (l : List (Movie × ℚ)),
      get_recommendations mr u = .ok l →
      l.length ≤ 10 ∧ l.Pairwise (fun a b => b.2 ≤ a.2) := by
  intro mr u l h
  obtain ⟨mov, usr, cur, gra⟩ := mr
  cases cur with
  | none => exact Except.noConfusion h
  | some cu =>
    cases u with
    | none => exact Except.noConfusion h
    | some cup =>
      cases gra with
      | none => exact Except.noConfusion h
      | some g =>
        simp only [get_recommendations] at h
        split at h
        · exact Except.noConfusion h
        · injection h with h2
          subst h2
          exact ⟨List.length_take_le 10 _,
            List.Pairwise.sublist (List.take_sublist 10 _) (sortByScoreDesc_pairwise _)⟩

unseal Rat.mul Rat.inv Rat.add in
/-- Witness for C8: the concrete run of `get_recommendations` on `mrEx`
yields a list of length at most 10 that is sorted descending. -/
theorem claimC8_witness :
    get_recommendations mrEx (some exUser1) = .ok [(matrixM, 12)]
    ∧ ([(matrixM, (12 : ℚ))] : List (Movie × ℚ)).length ≤ 10
    ∧ ([(matrixM, (12 : ℚ))] : List (Movie × ℚ)).Pairwise (fun a b => b.2 ≤ a.2) :=
  ⟨by decide, (claimC8 mrEx (some exUser1) [(matrixM, 12)] (by decide)).1,
    (claimC8 mrEx (some exUser1) [(matrixM, 12)] (by decide)).2⟩

/-- C9: when no user is active (`self.current_user` unset),
`get_recommendations` raises the distinct `RuntimeError` ("No current user
set") rather than returning a list, so the usage-contract failure can never
be mistaken for an empty recommendation result. -/
theorem claimC9 :
    ∀ (mr : MovieRecommender) (u : Option User),
      mr.current_user = none →
      get_recommendations mr u = .error .runtimeError
      ∧ ∀ (l : List (Movie × ℚ)), get_recommendations mr u ≠ .ok l := by
  intro mr u h
  have herr : get_recommendations mr u = .error .runtimeError := by
    unfold get_recommendations
    rw [h]
  refine ⟨herr, ?_⟩
  intro l hl
  rw [herr] at hl
  exact Except.noConfusion hl

/-- A recommender with nobody logged in. -/
def mrLoggedOut : MovieRecommender := ⟨[], [], none, none⟩

/-- Witness for C9: on the logged-out recommender the call raises
`RuntimeError` and in particular is not the empty list result. -/
theorem claimC9_witness :
    mrLoggedOut.current_user = none
    ∧ get_recommendations mrLoggedOut none = .error .runtimeError
    ∧ get_recommendations mrLoggedOut none ≠ .ok [] :=
  ⟨rfl, (claimC9 mrLoggedOut none rfl).1, (claimC9 mrLoggedOut none rfl).2 []⟩

/-! ## Lemmas about the ratings loop and graph build (for C1) -/

theorem processRatingRow_shape (st st2 : LoadState) (row : List String)
    (h : processRatingRow st row = .ok st2) :
    ∃ (u : Int) (r : ℚ),
      st2 = { movies := st.movies,
              users := ratingUserUpdate st.movies st.users u (row.getD 1 ""),
              ratings := st.ratings ++ [RatingsEntry.tup u (row.getD 1 "") r] } := by
  unfold processRatingRow at h
  split at h
  · exact Except.noConfusion h
  · split at h
    · exact Except.noConfusion h
    · split at h
      · exact Except.noConfusion h
      · injection h with h2
        exact ⟨_, _, h2.symm⟩

theorem foldRows_rating_tup :
    ∀ (rows : List (List String)) (st : LoadState),
      (∀ e ∈ st.ratings, e.isTup = true) →
      ∀ e ∈ (foldRows processRatingRow st rows).1.ratings, e.isTup = true := by
  intro rows
  induction rows with
  | nil => intro st hst; exact hst
  | cons r rs ih =>
    intro st hst
    rw [foldRows]
    cases hpr : processRatingRow st r with
    | error e => exact hst
    | ok st2 =>
      apply ih
      obtain ⟨u, rt, hsh⟩ := processRatingRow_shape st st2 r hpr
      subst hsh
      intro e he
      rcases List.mem_append.1 he with he1 | he2
      · exact hst e he1
      · rw [List.mem_singleton.1 he2]
        rfl

theorem foldRows_rating_length :
    ∀ (rows : List (List String)) (st st1 : LoadState),
      foldRows processRatingRow st rows = (st1, none) →
      st1.ratings.length = st.ratings.length + rows.length := by
  intro rows
  induction rows with
  | nil =>
    intro st st1 h
    rw [foldRows] at h
    injection h with h1 _
    subst h1
    simp
  | cons r rs ih =>
    intro st st1 h
    rw [foldRows] at h
    cases hpr : processRatingRow st r with
    | error e =>
      rw [hpr] at h
      injection h with _ h2
      exact Option.noConfusion h2
    | ok st2 =>
      rw [hpr] at h
      obtain ⟨u, rt, hsh⟩ := processRatingRow_shape st st2 r hpr
      have := ih st2 st1 h
      rw [this, hsh]
      simp [List.length_append]
      omega

theorem build_tup_head (e : RatingsEntry) (rest : List RatingsEntry)
    (he : e.isTup = true) :
    build_user_movie_graph (e :: rest) = .error .typeError := by
  cases e with
  | dict u m r g => exact absurd he (by simp [RatingsEntry.isTup])
  | tup u m r => rfl

/-- C1: whenever the movies file parses and the ratings file parses with at
least one data row, `load_data` accumulates the ratings as 3-tuples and
hands them to `build_user_movie_graph`, whose string indexing
`entry["user"]` raises a `TypeError`; the surrounding `except` clauses catch
only `ValueError` and `RuntimeError`, so the `TypeError` escapes `load_data`
and `self.graph` is never assigned. -/
theorem claimC1 :
    ∀ (movies0 : List (String × Movie)) (users0 : List (Int × User))
      (graph0 : Option UMGraph) (movieRows ratingRows : List (List String))
      (movies1 : List (String × Movie)) (st1 : LoadState),
      foldRows processMovieRow movies0 movieRows = (movies1, none) →
      foldRows processRatingRow ⟨movies1, users0, []⟩ ratingRows = (st1, none) →
      ratingRows ≠ [] →
      (load_data movies0 users0 graph0 movieRows ratingRows).outcome
          = .uncaughtErr .typeError
      ∧ (load_data movies0 users0 graph0 movieRows ratingRows).graph = graph0 := by
  intro movies0 users0 graph0 movieRows ratingRows movies1 st1 h1 h2 h3
  have hlen : st1.ratings.length = ratingRows.length := by
    have := foldRows_rating_length ratingRows ⟨movies1, users0, []⟩ st1 h2
    simpa using this
  have htup : ∀ e ∈ st1.ratings, e.isTup = true := by
    have := foldRows_rating_tup ratingRows ⟨movies1, users0, []⟩
      (by intro e he; exact absurd he (List.not_mem_nil e))
    rw [h2] at this
    exact this
  have hne : st1.ratings ≠ [] := by
    intro hnil
    rw [hnil] at hlen
    exact h3 (List.length_eq_zero.1 hlen.symm)
  obtain ⟨e, rest, hr⟩ := List.exists_cons_of_ne_nil hne
  have hbuild : build_user_movie_graph st1.ratings = .error .typeError := by
    rw [hr]
    exact build_tup_head e rest (htup e (hr ▸ List.mem_cons_self e rest))
  unfold load_data
  rw [h1]
  simp only [h2, hbuild]
  constructor <;> simp [catchOf]

/-- A well-formed concrete ratings row. -/
def okRatingRow : List String := ["1", "Inception", "9.0", "Sci-Fi"]

/-- The `LoadState` the ratings loop reaches on `okRatingRow` alone. -/
def stC1 : LoadState :=
  ⟨[], [(1, ⟨1, []⟩)], [RatingsEntry.tup 1 "Inception" 9]⟩

unseal Rat.mul Rat.inv Rat.add in
/-- Witness for C1: an empty movies file and a single well-formed ratings
row make `load_data` end with an uncaught `TypeError` and leave the graph
unset. -/
theorem claimC1_witness :
    foldRows processMovieRow [] [] = ([], none)
    ∧ foldRows processRatingRow ⟨[], [], []⟩ [okRatingRow] = (stC1, none)
    ∧ ([okRatingRow] : List (List String)) ≠ []
    ∧ (load_data [] [] none [] [okRatingRow]).outcome = .uncaughtErr .typeError
    ∧ (load_data [] [] none [] [okRatingRow]).graph = none :=
  ⟨rfl, by decide, by decide,
    (claimC1 [] [] none [] [okRatingRow] [] stC1 rfl (by decide) (by decide)).1,
    (claimC1 [] [] none [] [okRatingRow] [] stC1 rfl (by decide) (by decide)).2⟩

/-! ## Lemmas for the login claim (C2) -/

theorem le_foldlMax (ks : List Int) : ∀ (k0 : Int), k0 ≤ ks.foldl max k0 := by
  induction ks with
  | nil => intro k0; exact le_refl k0
  | cons k ks ih =>
    intro k0
    rw [List.foldl_cons]
    exact le_trans (le_max_left k0 k) (ih (max k0 k))

theorem mem_le_foldlMax (ks : List Int) : ∀ (k0 : Int), ∀ x ∈ ks, x ≤ ks.foldl max k0 := by
  induction ks with
  | nil => intro k0 x hx; exact absurd hx (List.not_mem_nil x)
  | cons k ks ih =>
    intro k0 x hx
    rw [List.foldl_cons]
    rcases List.mem_cons.1 hx with rfl | hx2
    · exact le_trans (le_max_right k0 x) (le_foldlMax ks (max k0 x))
    · exact ih (max k0 k) x hx2

theorem foldlMax_mem (ks : List Int) :
    ∀ (k0 : Int), ks.foldl max k0 = k0 ∨ ks.foldl max k0 ∈ ks := by
  induction ks with
  | nil => intro k0; exact Or.inl rfl
  | cons k ks ih =>
    intro k0
    rw [List.foldl_cons]
    rcases ih (max k0 k) with hk0 | hmem
    · rw [hk0]
      rcases max_choice k0 k with hl | hr
      · exact Or.inl hl
      · rw [hr]
        exact Or.inr (List.mem_cons_self k ks)
    · exact Or.inr (List.mem_cons_of_mem k hmem)

/-- Python `max` on a nonempty key list returns the maximum: an element of
the list that bounds every element. -/
theorem pyMax_spec (keys : List Int) (h : keys ≠ []) :
    ∃ mx, pyMax keys = .ok mx ∧ mx ∈ keys ∧ ∀ x ∈ keys, x ≤ mx := by
  cases keys with
  | nil => exact absurd rfl h
  | cons k ks =>
    refine ⟨ks.foldl max k, rfl, ?_, ?_⟩
    · rcases foldlMax_mem ks k with hk | hmem
      · rw [hk]
        exact List.mem_cons_self k ks
      · exact List.mem_cons_of_mem k hmem
    · intro x hx
      rcases List.mem_cons.1 hx with rfl | hx2
      · exact le_foldlMax ks x
      · exact mem_le_foldlMax ks k x hx2

theorem dictSet_of_fresh {κ α : Type} [DecidableEq κ] :
    ∀ (d : List (κ × α)) (k : κ) (v : α), (∀ p ∈ d, p.1 ≠ k) →
      dictSet d k v = d ++ [(k, v)] := by
  intro d
  induction d with
  | nil => intro k v _; rfl
  | cons q rest ih =>
    intro k v hfresh
    rw [dictSet, if_neg (hfresh q (List.mem_cons_self q rest)), List.cons_append,
      ih k v (fun p hp => hfresh p (List.mem_cons_of_mem q hp))]

/-- C2 counterexample: on an empty user directory, `login("new")` does not
assign id 0 — `max(self.users.keys())` raises an uncaught `ValueError`
instead, so no user is created and nobody is logged in. -/
theorem claimC2_counterexample :
    loginNew [] = .error .valueError
    ∧ loginNew [] ≠ .ok ([(0, ⟨0, []⟩)], ⟨0, []⟩) :=
  ⟨rfl, fun h => Except.noConfusion h⟩

/-- C2 (amended): logging in with `"new"` allocates a fresh id equal to one
greater than the current maximum existing id (`mx` below is an existing id
that bounds all existing ids, and the new user's id is exactly `mx + 1`),
creates a `User` with an empty watched set, stores it in the directory and
makes it active — provided at least one user already exists; on an empty
`UserDirectory` the `max()` call raises `ValueError` instead of assigning
id 0, so the spec's empty-directory scenario never happens. -/
theorem claimC2 :
    ∀ (users : List (Int × User)), users ≠ [] →
      ∃ (mx : Int) (u : User),
        pyMax (users.map Prod.fst) = .ok mx
        ∧ mx ∈ users.map Prod.fst
        ∧ (∀ x ∈ users.map Prod.fst, x ≤ mx)
        ∧ u.user_id = mx + 1
        ∧ loginNew users = .ok (users ++ [(u.user_id, u)], u)
        ∧ u.watched_movies = []
        ∧ ∀ p ∈ users, p.1 < u.user_id := by
  intro users h
  obtain ⟨mx, hmx, hmem, hbound⟩ := pyMax_spec (users.map Prod.fst) (by simpa using h)
  have hfresh : ∀ p ∈ users, p.1 < mx + 1 := by
    intro p hp
    exact lt_of_le_of_lt (hbound p.1 (List.mem_map_of_mem Prod.fst hp)) (lt_add_one mx)
  refine ⟨mx, ⟨mx + 1, []⟩, hmx, hmem, hbound, rfl, ?_, rfl, hfresh⟩
  simp only [loginNew, hmx,
    dictSet_of_fresh users (mx + 1) _ (fun p hp => ne_of_lt (hfresh p hp))]

/-- An existing user for the C2 witness. -/
def exUser5 : User := ⟨5, []⟩

/-- Witness for C2: on a directory holding only user 5, `login("new")`
creates exactly the active user with id `5 + 1 = 6` and an empty watched
set, appended to the directory. -/
theorem claimC2_witness :
    ([(5, exUser5)] : List (Int × User)) ≠ []
    ∧ (∃ (mx : Int) (u : User),
        pyMax ([(5, exUser5)].map Prod.fst) = .ok mx
        ∧ mx ∈ [(5, exUser5)].map Prod.fst
        ∧ (∀ x ∈ [(5, exUser5)].map Prod.fst, x ≤ mx)
        ∧ u.user_id = mx + 1
        ∧ loginNew [(5, exUser5)] = .ok ([(5, exUser5)] ++ [(u.user_id, u)], u)
        ∧ u.watched_movies = []
        ∧ ∀ p ∈ [(5, exUser5)], p.1 < u.user_id)
    ∧ loginNew [(5, exUser5)] = .ok ([(5, exUser5), (6, ⟨6, []⟩)], ⟨6, []⟩) :=
  ⟨by decide, claimC2 [(5, exUser5)] (by decide), by decide⟩

/-! ## Rows for the loader claim (C3) -/

/-- 16 columns, valid year, malformed runtime (`"abc"`). -/
def badRuntimeRow : List String :=
  ["0", "BadMovie", "2000", "c", "abc", "Drama", "7.0", "m", "x", "Dir",
   "a1", "a2", "a3", "a4", "100", "g"]

/-- 16 columns, malformed year (`"20xx"`). -/
def badYearRow : List String :=
  ["0", "YearMovie", "20xx", "c", "100min", "Drama", "7.0", "m", "x", "Dir",
   "a1", "a2", "a3", "a4", "100", "g"]

/-- 16 columns, all fields well-formed. -/
def goodMovieRow : List String :=
  ["0", "GoodMovie", "2001", "c", "120min", "Drama", "8.0", "m", "x", "Dir",
   "a1", "a2", "a3", "a4", "200", "g"]

unseal Rat.mul Rat.inv Rat.add in
/-- C3 counterexample: a row with a well-formed year but a malformed runtime
(a numeric field) is not skipped — its `ValueError` aborts the rest of the
load: the following well-formed row is never loaded even though every row
has the expected 16 columns, and `load_data` ends by catching the error at
batch level. -/
theorem claimC3_counterexample :
    badRuntimeRow.length = 16
    ∧ (load_data [] [] none [badRuntimeRow, goodMovieRow] []).outcome
        = .caughtErr .valueError
    ∧ (load_data [] [] none [badRuntimeRow, goodMovieRow] []).movies = []
    ∧ dictHasKey (load_data [] [] none [badRuntimeRow, goodMovieRow] []).movies
        "GoodMovie" = false := by
  exact ⟨by decide, by decide, by decide, by decide⟩

/-- C3 (amended): only a malformed *year* makes the loader skip and report
the row and continue with the remaining rows; a malformed runtime, rating
or vote count raises `ValueError`, which aborts all remaining rows of the
load just like a column-count mismatch does, and `load_data` catches it at
batch level, leaving the movies read so far and never assigning the
graph. -/
theorem claimC3 :
    (∀ (movies0 : List (String × Movie)) (row : List String) (rows : List (List String)),
        row.length = 16 → pyStripIsDigit (row.getD 2 "") = false →
        foldRows processMovieRow movies0 (row :: rows)
          = foldRows processMovieRow movies0 rows)
    ∧ (∀ (movies0 : List (String × Movie)) (row : List String) (rows : List (List String))
          (e : PyErr), processMovieRow movies0 row = .error e →
        foldRows processMovieRow movies0 (row :: rows) = (movies0, some e))
    ∧ (∀ (movies0 : List (String × Movie)) (users0 : List (Int × User))
          (graph0 : Option UMGraph) (row : List String) (rows ratingRows : List (List String)),
        processMovieRow movies0 row = .error .valueError →
        (load_data movies0 users0 graph0 (row :: rows) ratingRows).outcome
            = .caughtErr .valueError
        ∧ (load_data movies0 users0 graph0 (row :: rows) ratingRows).movies = movies0
        ∧ (load_data movies0 users0 graph0 (row :: rows) ratingRows).graph = graph0)
    ∧ (∀ (movies0 : List (String × Movie)),
        processMovieRow movies0 badRuntimeRow = .error .valueError) := by
  have hskip : ∀ (movies0 : List (String × Movie)) (row : List String),
      row.length = 16 → pyStripIsDigit (row.getD 2 "") = false →
      processMovieRow movies0 row = .ok movies0 := by
    intro movies0 row h16 hyd
    unfold processMovieRow
    rw [if_neg (by simp [h16]), if_pos hyd]
  have habort : ∀ (movies0 : List (String × Movie)) (row : List String)
      (rows : List (List String)) (e : PyErr), processMovieRow movies0 row = .error e →
      foldRows processMovieRow movies0 (row :: rows) = (movies0, some e) := by
    intro movies0 row rows e he
    rw [foldRows, he]
  refine ⟨?_, habort, ?_, ?_⟩
  · intro movies0 row rows h16 hyd
    rw [foldRows, hskip movies0 row h16 hyd]
  · intro movies0 users0 graph0 row rows ratingRows he
    unfold load_data
    rw [habort movies0 row rows .valueError he]
    exact ⟨rfl, rfl, rfl⟩
  · intro movies0
    unfold processMovieRow
    rw [if_neg (by decide), if_neg (by decide)]
    have h4 : pyIntL (removeMin (badRuntimeRow.getD 4 "").data) = .error .valueError := by
      decide
    rw [show pyInt (badRuntimeRow.getD 2 "") = .ok 2000 from by decide, h4]

unseal Rat.mul Rat.inv Rat.add in
/-- Witness for C3: the bad-year row is skipped and loading continues to the
good row; the bad-runtime row raises `ValueError`, aborts the rest of the
load, and `load_data` reports it at batch level. -/
theorem claimC3_witness :
    badYearRow.length = 16
    ∧ pyStripIsDigit (badYearRow.getD 2 "") = false
    ∧ foldRows processMovieRow [] [badYearRow, goodMovieRow]
        = foldRows processMovieRow [] [goodMovieRow]
    ∧ processMovieRow [] badRuntimeRow = .error .valueError
    ∧ foldRows processMovieRow [] [badRuntimeRow, goodMovieRow]
        = ([], some .valueError)
    ∧ (load_data [] [] none [badRuntimeRow, goodMovieRow] []).outcome
        = .caughtErr .valueError :=
  ⟨by decide, by decide,
    claimC3.1 [] badYearRow [goodMovieRow] (by decide) (by decide),
    claimC3.2.2.2 [],
    claimC3.2.1 [] badRuntimeRow [goodMovieRow] .valueError (claimC3.2.2.2 []),
    (claimC3.2.2.1 [] [] none badRuntimeRow [goodMovieRow] [] (claimC3.2.2.2 [])).1⟩
